/-
Verification of the financial-analysis pipeline (scraper, downloader,
extraction, dashboard).  Shallow embedding of the date-normalization,
record-building, result-flattening and metric-resolution logic of
src/scripts/Crawling_and_Scraping.py, src/scripts/Download_Reports.py,
src/scripts/Extraction_Financial_Data.py and src/scripts/StreamlitUI.py.
Machine strings are lists of characters; Python exceptions are the error
side of Except; CSV/JSON mappings are association lists.
-/
import Mathlib

/-! ## String helpers (models of Python string operations) -/

/-- Does `pat` occur as an initial segment of the word? Model of the initial
part of a regex / of Python str.startswith. -/
def listStarts : List Char → List Char → Bool
  | [], _ => true
  | _ :: _, [] => false
  | a :: as, b :: bs => (a == b) && listStarts as bs

/-- Does `pat` occur contiguously anywhere in the word? Model of the Python
substring test `pat in s`. -/
def listHasSub (pat : List Char) : List Char → Bool
  | [] => listStarts pat []
  | c :: cs => listStarts pat (c :: cs) || listHasSub pat cs

/-- `pat` occurs contiguously in `s` (Python `pat in s`). -/
def strHasSub (s pat : String) : Bool := listHasSub pat.toList s.toList

/-- `s` starts with `pat` (Python `s.startswith(pat)`). -/
def strStartsWith (s pat : String) : Bool := listStarts pat.toList s.toList

/-- Python `s.lower()` (ASCII inputs; both map A-Z to a-z). -/
def strLower (s : String) : String := String.mk (s.toList.map Char.toLower)

/-- Python `int(s)` on a string of decimal digits. -/
def pyInt (s : String) : Nat := s.toList.foldl (fun n c => n * 10 + (c.toNat - 48)) 0

/-- Python `s.split()` with no argument: the maximal non-whitespace runs, in
order (whitespace runs separate words, no empty words). -/
def wsWords (acc : List Char) : List Char → List String
  | [] => if acc.isEmpty then [] else [String.mk acc.reverse]
  | c :: cs =>
    if c.isWhitespace then
      (if acc.isEmpty then wsWords [] cs else String.mk acc.reverse :: wsWords [] cs)
    else wsWords (c :: acc) cs

def pySplitWs (s : String) : List String := wsWords [] s.toList

/-- Python `s.split("\n")[0]`: everything before the first line break. -/
def firstUpToNl : List Char → List Char
  | [] => []
  | c :: cs => if c == '\n' then [] else c :: firstUpToNl cs

def pyFirstLine (s : String) : String := String.mk (firstUpToNl s.toList)

/-! ## Python datetime model

`datetime(year, month, day)` raises ValueError unless `MINYEAR (1) ≤ year ≤
MAXYEAR (9999)`, `1 ≤ month ≤ 12` and `1 ≤ day ≤` the length of that month. -/

structure PyDate where
  year : Nat
  month : Nat
  day : Nat
deriving Repr, DecidableEq

def isLeap (y : Nat) : Bool := y % 4 == 0 && (y % 100 != 0 || y % 400 == 0)

def daysInMonth (y m : Nat) : Nat :=
  if m == 2 then (if isLeap y then 29 else 28)
  else if m == 4 || m == 6 || m == 9 || m == 11 then 30
  else 31

/-- `datetime(y, m, d)`: the constructed date, or the ValueError it raises. -/
def mkDatetime (y m d : Nat) : Except String PyDate :=
  if 1 ≤ y && y ≤ 9999 && 1 ≤ m && m ≤ 12 && 1 ≤ d && d ≤ daysInMonth y m
  then .ok ⟨y, m, d⟩ else .error "ValueError: invalid date"

/-! ## Regex pattern matchers of Download_Reports.parse_date

parse_date (src/scripts/Download_Reports.py lines 15-58) tries, with
`re.match` (anchored at the start, trailing text allowed), the patterns
  0: (\d{2}) (\w{3}) (\d{4})(\d{2}):(\d{2}) ([AP]M)
  1: (\d{2}) (\w{3}) (\d{4}) (\d{2}):(\d{2}) ([AP]M)
  2: (\d{2})-(\w{3})-(\d{4})
  3: (\d{2})/(\d{2})/(\d{4})
All counted groups are fixed-width, so the regexes need no backtracking:
a matcher consumes exactly the shape above and returns the groups. -/

/-- Exactly `n` characters satisfying `p`: the matched run and the rest. -/
def takeCount (p : Char → Bool) : Nat → List Char → Option (List Char × List Char)
  | 0, cs => some ([], cs)
  | _ + 1, [] => none
  | n + 1, c :: cs =>
    if p c then (takeCount p n cs).map (fun g => (c :: g.1, g.2)) else none

/-- One fixed literal character. -/
def lit (ch : Char) : List Char → Option (List Char)
  | [] => none
  | c :: cs => if c == ch then some cs else none

/-- Python regex \w on the repository's ASCII inputs. -/
def isWordChar (c : Char) : Bool := c.isAlphanum || c == '_'

/-- The trailing `([AP]M)` group: its two characters and the rest. -/
def ampmTail : List Char → Option (String × List Char)
  | c :: m :: rest =>
    if (c == 'A' || c == 'P') && m == 'M' then some (String.mk [c, m], rest) else none
  | _ => none

/-- The groups of patterns 0 and 1. -/
structure TimeGroups where
  day : String
  monthStr : String
  year : String
  hour : String
  minute : String
  ampm : String
deriving Repr, DecidableEq

/-- Pattern 0, `"09 Feb 202511:19 PM"` (no space between year and time):
the merged six-digit run is split by the regex itself into the four-digit
year group and the two-digit hour group. -/
def matchP0 (s : String) : Option TimeGroups := do
  let (d, r) ← takeCount Char.isDigit 2 s.toList
  let r ← lit ' ' r
  let (mon, r) ← takeCount isWordChar 3 r
  let r ← lit ' ' r
  let (y, r) ← takeCount Char.isDigit 4 r
  let (h, r) ← takeCount Char.isDigit 2 r
  let r ← lit ':' r
  let (mi, r) ← takeCount Char.isDigit 2 r
  let r ← lit ' ' r
  let (ap, _) ← ampmTail r
  pure ⟨String.mk d, String.mk mon, String.mk y, String.mk h, String.mk mi, ap⟩

/-- Pattern 1, `"09 Feb 2025 11:19 PM"`. -/
def matchP1 (s : String) : Option TimeGroups := do
  let (d, r) ← takeCount Char.isDigit 2 s.toList
  let r ← lit ' ' r
  let (mon, r) ← takeCount isWordChar 3 r
  let r ← lit ' ' r
  let (y, r) ← takeCount Char.isDigit 4 r
  let r ← lit ' ' r
  let (h, r) ← takeCount Char.isDigit 2 r
  let r ← lit ':' r
  let (mi, r) ← takeCount Char.isDigit 2 r
  let r ← lit ' ' r
  let (ap, _) ← ampmTail r
  pure ⟨String.mk d, String.mk mon, String.mk y, String.mk h, String.mk mi, ap⟩

/-- The groups of patterns 2 and 3 (day, month field, year). -/
structure DMYGroups where
  day : String
  monthField : String
  year : String
deriving Repr, DecidableEq

/-- Pattern 2, `"DD-Mon-YYYY"` (month field is \w{3}). -/
def matchP2 (s : String) : Option DMYGroups := do
  let (d, r) ← takeCount Char.isDigit 2 s.toList
  let r ← lit '-' r
  let (mon, r) ← takeCount isWordChar 3 r
  let r ← lit '-' r
  let (y, _) ← takeCount Char.isDigit 4 r
  pure ⟨String.mk d, String.mk mon, String.mk y⟩

/-- Pattern 3, `"DD/MM/YYYY"` (month field is \d{2}). -/
def matchP3 (s : String) : Option DMYGroups := do
  let (d, r) ← takeCount Char.isDigit 2 s.toList
  let r ← lit '/' r
  let (mon, r) ← takeCount Char.isDigit 2 r
  let r ← lit '/' r
  let (y, _) ← takeCount Char.isDigit 4 r
  pure ⟨String.mk d, String.mk mon, String.mk y⟩

/-! ## Download_Reports.parse_date -/

/-- The list `months` of line 45 (used by the numeric-month conversion). -/
def monthNamesList : List String :=
  ["Jan", "Feb", "Mar", "Apr", "May", "Jun", "Jul", "Aug", "Sep", "Oct", "Nov", "Dec"]

/-- The dict `months` of line 50 (month name to number). -/
def monthsDict : List (String × Nat) :=
  [("Jan", 1), ("Feb", 2), ("Mar", 3), ("Apr", 4), ("May", 5), ("Jun", 6),
   ("Jul", 7), ("Aug", 8), ("Sep", 9), ("Oct", 10), ("Nov", 11), ("Dec", 12)]

/-- Lines 34-36: `if len(year) > 4: year = year[:4]; hour = year[4:]` —
note the second assignment reads the already-truncated `year`. -/
def fixYearHour (y h : String) : String × String :=
  if y.length > 4 then (y.take 4, (y.take 4).drop 4) else (y, h)

/-- Python list indexing `xs[i]`, negative indices counting from the end;
out of range raises IndexError. -/
def pyListGet (xs : List String) (i : Int) : Except String String :=
  let j := if i < 0 then i + xs.length else i
  if j < 0 then .error "IndexError: list index out of range"
  else match xs.get? j.toNat with
    | some v => .ok v
    | none => .error "IndexError: list index out of range"

/-- Pattern 3 branch of the loop: the numeric month is converted through
`months[int(month) - 1]` (lines 43-47; a list IndexError here escapes
parse_date) and then looked up in the name dict; month "00" hits Python's
negative index -1, i.e. "Dec". -/
def parse_dateP3 (s : String) : Except String (Option PyDate) :=
  match matchP3 s with
  | some g =>
    match pyListGet monthNamesList ((pyInt g.monthField : Int) - 1) with
    | .error e => .error e
    | .ok name =>
      match monthsDict.lookup name with
      | some m => (mkDatetime (pyInt g.year) m (pyInt g.day)).map some
      | none => .ok none
  | none => .ok none

/-- Pattern 2 branch: a month name outside the dict falls through to the
next pattern (the loop continues). -/
def parse_dateP2 (s : String) : Except String (Option PyDate) :=
  match matchP2 s with
  | some g =>
    match monthsDict.lookup g.monthField with
    | some m => (mkDatetime (pyInt g.year) m (pyInt g.day)).map some
    | none => parse_dateP3 s
  | none => parse_dateP3 s

/-- Pattern 1 branch. -/
def parse_dateP1 (s : String) : Except String (Option PyDate) :=
  match matchP1 s with
  | some g =>
    match monthsDict.lookup g.monthStr with
    | some m => (mkDatetime (pyInt g.year) m (pyInt g.day)).map some
    | none => parse_dateP2 s
  | none => parse_dateP2 s

/-- `parse_date` of src/scripts/Download_Reports.py lines 15-58: tries the
four patterns in order; `.ok none` is Python's `return None` fallback,
`.error` an exception escaping the function (nothing in parse_date catches
the datetime ValueError or the list IndexError). -/
def parse_date (s : String) : Except String (Option PyDate) :=
  match matchP0 s with
  | some g =>
    let yh := fixYearHour g.year g.hour
    match monthsDict.lookup g.monthStr with
    | some m => (mkDatetime (pyInt yh.1) m (pyInt g.day)).map some
    | none => parse_dateP1 s
  | none => parse_dateP1 s

/-! ## CPython strptime model for the three formats the repository uses

CPython compiles each directive to a regex: `%Y` is `\d\d\d\d`, `%m` is
`1[0-2]|0[1-9]|[1-9]`, `%d` is `3[0-1]|[1-2]\d|0[1-9]|[1-9]| [1-9]`;
alternatives are tried left to right with backtracking, the whole string
must be consumed, and the datetime constructed afterwards can still raise
ValueError (e.g. day out of range for the month). -/

def digitVal (c : Char) : Nat := c.toNat - 48

/-- The `%d` alternatives, in CPython's order, each with its remainder. -/
def altD31 (cs : List Char) : List (Nat × List Char) :=
  (match cs with
   | '3' :: c :: rest => if c == '0' || c == '1' then [(30 + digitVal c, rest)] else []
   | _ => []) ++
  (match cs with
   | a :: c :: rest =>
     if (a == '1' || a == '2') && c.isDigit then [(digitVal a * 10 + digitVal c, rest)] else []
   | _ => []) ++
  (match cs with
   | '0' :: c :: rest => if '1' ≤ c && c ≤ '9' then [(digitVal c, rest)] else []
   | _ => []) ++
  (match cs with
   | c :: rest => if '1' ≤ c && c ≤ '9' then [(digitVal c, rest)] else []
   | _ => []) ++
  (match cs with
   | ' ' :: c :: rest => if '1' ≤ c && c ≤ '9' then [(digitVal c, rest)] else []
   | _ => [])

/-- The `%m` alternatives, in CPython's order. -/
def altM12 (cs : List Char) : List (Nat × List Char) :=
  (match cs with
   | '1' :: c :: rest => if '0' ≤ c && c ≤ '2' then [(10 + digitVal c, rest)] else []
   | _ => []) ++
  (match cs with
   | '0' :: c :: rest => if '1' ≤ c && c ≤ '9' then [(digitVal c, rest)] else []
   | _ => []) ++
  (match cs with
   | c :: rest => if '1' ≤ c && c ≤ '9' then [(digitVal c, rest)] else []
   | _ => [])

/-- The `%Y` group: exactly four digits. -/
def altY4 (cs : List Char) : Option (Nat × List Char) :=
  match cs with
  | a :: b :: c :: d :: rest =>
    if a.isDigit && b.isDigit && c.isDigit && d.isDigit
    then some (((digitVal a * 10 + digitVal b) * 10 + digitVal c) * 10 + digitVal d, rest)
    else none
  | _ => none

/-- The regex of `"%Y-%m-%d"` against the whole string: (year, month, day). -/
def regexYmd (cs : List Char) : Option (Nat × Nat × Nat) :=
  match altY4 cs with
  | none => none
  | some (y, r1) =>
    match r1 with
    | '-' :: r2 =>
      (altM12 r2).findSome? fun mr =>
        match mr.2 with
        | '-' :: r3 =>
          (altD31 r3).findSome? fun dr =>
            match dr.2 with
            | [] => some (y, mr.1, dr.1)
            | _ :: _ => none
        | _ => none
    | _ => none

/-- The regex of `"%d<sep>%m<sep>%Y"` (sep is '-' or '/'): (year, month, day). -/
def regexDmy (sep : Char) (cs : List Char) : Option (Nat × Nat × Nat) :=
  (altD31 cs).findSome? fun dr =>
    match dr.2 with
    | c :: r2 =>
      if c == sep then
        (altM12 r2).findSome? fun mr =>
          match mr.2 with
          | c2 :: r3 =>
            if c2 == sep then
              match altY4 r3 with
              | some (y, []) => some (y, mr.1, dr.1)
              | _ => none
            else none
          | _ => none
      else none
    | _ => none

/-- `datetime.strptime(s, "%Y-%m-%d")`: the date, or the ValueError raised. -/
def strptimeYmd (s : String) : Except String PyDate :=
  match regexYmd s.toList with
  | none => .error "ValueError: time data does not match format"
  | some (y, m, d) => mkDatetime y m d

/-- `datetime.strptime(s, "%d-%m-%Y")` / `"%d/%m/%Y"`. -/
def strptimeDmy (sep : Char) (s : String) : Except String PyDate :=
  match regexDmy sep s.toList with
  | none => .error "ValueError: time data does not match format"
  | some (y, m, d) => mkDatetime y m d

/-! ## Quarter derivation and Extraction_Financial_Data.determine_quarter -/

/-- The month-to-quarter branches shared verbatim by
src/scripts/Extraction_Financial_Data.py lines 208-215 and
src/scripts/Crawling_and_Scraping.py lines 140-147: 1-3 Q1, 4-6 Q2,
7-9 Q3, anything else Q4. -/
def monthQuarter (m : Nat) : String :=
  if 1 ≤ m && m ≤ 3 then "Q1"
  else if 4 ≤ m && m ≤ 6 then "Q2"
  else if 7 ≤ m && m ≤ 9 then "Q3"
  else "Q4"

/-- The shape `re.match(r'^\d{4}-\d{2}-\d{2}$', s)` accepts: ten characters
digit/dash, `$` also matching just before one trailing newline. -/
def isoShape : List Char → Bool
  | [a, b, c, d, '-', e, f, '-', g, h] =>
    a.isDigit && b.isDigit && c.isDigit && d.isDigit && e.isDigit && f.isDigit &&
      g.isDigit && h.isDigit
  | [a, b, c, d, '-', e, f, '-', g, h, '\n'] =>
    a.isDigit && b.isDigit && c.isDigit && d.isDigit && e.isDigit && f.isDigit &&
      g.isDigit && h.isDigit
  | _ => false

/-- `validate_date_format` of src/scripts/Extraction_Financial_Data.py
lines 190-196. -/
def validate_date_format (s : String) : Bool := isoShape s.toList

/-- `determine_quarter` of src/scripts/Extraction_Financial_Data.py lines
198-219: empty or badly shaped input is "Unknown"; the bare `except` turns
any strptime failure into "Unknown"; otherwise `f"{quarter} {year}"`. -/
def determine_quarter (s : String) : String :=
  if s == "" || !validate_date_format s then "Unknown"
  else
    match (strptimeYmd s).toOption with
    | some d => monthQuarter d.month ++ " " ++ toString d.year
    | none => "Unknown"

/-! ## Crawling_and_Scraping.extract_quarterly_reports: the per-row record -/

/-- The date-format scan of src/scripts/Crawling_and_Scraping.py lines
126-155: for each format ["%d-%m-%Y", "%d/%m/%Y", "%Y-%m-%d"] in order,
scan the whitespace-separated words of the label left To right; the first
word that parses fixes (quarter, year) and both loops stop. -/
def scanQuarterYear (text : String) : String × String :=
  let fmts : List (String → Except String PyDate) :=
    [strptimeDmy '-', strptimeDmy '/', strptimeYmd]
  match fmts.findSome? (fun f => (pySplitWs text).findSome? (fun w => (f w).toOption)) with
  | some d => (monthQuarter d.month, toString d.year)
  | none => ("", "")

/-- One parsed table row as the scraper reads it: the first cell's text,
the second cell's text, and the second cell's link target when the cell
has an `a` tag with an href. -/
structure RowCells where
  dateCellText : String
  reportText : String
  href : Option String
deriving Repr, DecidableEq

/-- One discovered filing (the dict appended at lines 157-165). -/
structure ReportRecord where
  company_name : String
  company_symbol : String
  date_uploaded : String
  report_text : String
  quarter : String
  year : String
  pdf_url : String
deriving Repr, DecidableEq

/-- The per-row body of `extract_quarterly_reports`
(src/scripts/Crawling_and_Scraping.py lines 110-165): take the upload date
up to the first line break, accept the link only when its target contains
".pdf", root-anchored targets absolutized with the site origin; append a
record only when the resulting link is non-empty, with (quarter, year)
recovered from the label text. -/
def linkOf (href : Option String) : String :=
  match href with
  | some h =>
    if strHasSub h ".pdf" then
      (if strStartsWith h "/" then "https://www.cse.lk" ++ h else h)
    else ""
  | none => ""

def buildReportRecord (company_name company_symbol : String) (row : RowCells) : Option ReportRecord :=
  let date_uploaded := pyFirstLine row.dateCellText
  let pdf_link := linkOf row.href
  if pdf_link == "" then none
  else
    let qy := scanQuarterYear row.reportText
    some { company_name, company_symbol, date_uploaded,
           report_text := row.reportText, quarter := qy.1, year := qy.2,
           pdf_url := pdf_link }

/-! ## Extraction_Financial_Data.process_pdfs: flattening one result

One parsed extraction-service response (the JSON of lines 74-124 of the
prompt schema) read defensively with `.get(key, default)` at lines 249-321.
JSON leaf values are strings, numbers or null. -/

inductive PyVal where
  | str (s : String)
  | num (q : ℚ)
  | null
deriving Repr, DecidableEq

structure CompanyInfoJson where
  name : Option String := none
  report_type : Option String := none
deriving Repr, DecidableEq

structure ReportingPeriodJson where
  duration : Option String := none
  end_date : Option String := none
  comparative_end_date : Option String := none
  audit_status : Option String := none
deriving Repr, DecidableEq

structure FinancialMetricsJson where
  currency_unit : Option String := none
  current_period : Option (List (String × PyVal)) := none
  comparative_period : Option (List (String × PyVal)) := none
  yoy_change_pct : Option (List (String × PyVal)) := none
deriving Repr, DecidableEq

structure SourceInfoJson where
  statement_used : Option String := none
  page_numbers : Option (List Int) := none
deriving Repr, DecidableEq

structure ExtractionData where
  company_info : Option CompanyInfoJson := none
  reporting_period : Option ReportingPeriodJson := none
  financial_metrics : Option FinancialMetricsJson := none
  source_information : Option SourceInfoJson := none
deriving Repr, DecidableEq

/-- The fixed base fields of the result record, lines 295-307: each
`data.get(section, {})` yields an empty mapping when the section is
missing, and each field has the default of its `.get(key, default)`. -/
def baseCols (data : ExtractionData) (pdfFile : String) : List (String × PyVal) :=
  let ci := data.company_info.getD {}
  let rp := data.reporting_period.getD {}
  let fm := data.financial_metrics.getD {}
  let si := data.source_information.getD {}
  let end_date := rp.end_date.getD ""
  let page_numbers_str := String.intercalate ", " ((si.page_numbers.getD []).map toString)
  [("Company", .str (ci.name.getD "Unknown")),
   ("Quarter_Year", .str (determine_quarter end_date)),
   ("Duration", .str (rp.duration.getD "Unknown")),
   ("Period_End_Date", .str end_date),
   ("Comparative_Period_End_Date", .str (rp.comparative_end_date.getD "")),
   ("Audit_Status", .str (rp.audit_status.getD "Unknown")),
   ("Currency_Unit", .str (fm.currency_unit.getD "Rs. '000")),
   ("Report_Type", .str (ci.report_type.getD "Unknown")),
   ("Statement_Used", .str (si.statement_used.getD "Unknown")),
   ("Page_Numbers", .str page_numbers_str),
   ("PDF_Filename", .str pdfFile)]

/-- The three per-period loops of lines 309-319: one prefixed column per
(key, value) pair of each section actually present, missing sections
contributing nothing (`financial_metrics.get(..., {})`). -/
def sectionCols (data : ExtractionData) : List (String × PyVal) :=
  let fm := data.financial_metrics.getD {}
  ((fm.current_period.getD []).map (fun kv => ("Current_" ++ kv.1, kv.2))) ++
    ((fm.comparative_period.getD []).map (fun kv => ("Comparative_" ++ kv.1, kv.2))) ++
    ((fm.yoy_change_pct.getD []).map (fun kv => ("YoY_Change_Pct_" ++ kv.1, kv.2)))

/-- The whole flat row built per PDF at lines 249-321, in dict insertion
order: the fixed base fields then the three prefixed metric sections. -/
def flattenResult (data : ExtractionData) (pdfFile : String) : List (String × PyVal) :=
  baseCols data pdfFile ++ sectionCols data

/-! ## StreamlitUI: metric column resolution (viz_tab1 lines 332-339,
viz_tab3 lines 1130-1137) -/

/-- Concept candidates: the columns whose lower-cased name contains the
concept token (`[col for col in cols if 'revenue' in col.lower()]`). -/
def conceptCols (cols : List String) (concept : String) : List String :=
  cols.filter (fun col => strHasSub (strLower col) concept)

/-- The gross-profit candidates, line 333 and line 1132:
`'gross_profit' in col.lower() and not 'margin' in col.lower()`. -/
def grossProfitCols (cols : List String) : List String :=
  cols.filter (fun col =>
    strHasSub (strLower col) "gross_profit" && !(strHasSub (strLower col) "margin"))

/-- Period selection, lines 338-339:
`next((col for col in cand if 'current' in col.lower()), None)`. -/
def firstWithToken (cols : List String) (tok : String) : Option String :=
  cols.find? (fun col => strHasSub (strLower col) tok)

/-! ## StreamlitUI.get_common_metrics (lines 204-237) -/

/-- A pandas frame as get_common_metrics reads it: the Company column when
the frame has one (one value per row), the numeric-dtype columns in stored
order with their per-row values (an absent cell is `none`), and the row
count. -/
structure PyFrame where
  companyVals : Option (List String)
  numericCols : List (String × List (Option ℚ))
  nRows : Nat
deriving Repr, DecidableEq

/-- `pandas.unique`: distinct values in order of first occurrence. -/
def uniqueFirstAux (seen : List String) : List String → List String
  | [] => []
  | x :: xs =>
    if seen.contains x then uniqueFirstAux seen xs
    else x :: uniqueFirstAux (x :: seen) xs

def uniqueFirst (l : List String) : List String := uniqueFirstAux [] l

/-- The entity groups the filter iterates over: `df['Company'].unique()`
when the column exists, else the dummy `['Dataset']` (lines 206-211). -/
def companiesOf (df : PyFrame) : List String :=
  match df.companyVals with
  | some vals => uniqueFirst vals
  | none => ["Dataset"]

/-- `company_df[col].notna().sum() / len(company_df)` for one group:
the fraction of non-absent values among the rows whose Company is `c`. -/
def availFrac (companyVals : List String) (vals : List (Option ℚ)) (c : String) : ℚ :=
  (((companyVals.zip vals).countP (fun p => p.1 == c && p.2.isSome) : ℚ)) /
    ((companyVals.countP (fun v => v == c) : ℚ))

/-- `exclude_cols` of line 216. -/
def excludeCols : List String := ["Page_Numbers"]

/-- `get_common_metrics(df, threshold=0.9)` of src/scripts/StreamlitUI.py
lines 204-237, with the frame passed in and out because
`df['Company'] = 'Dataset'` (line 211) writes into the caller's frame. The
returned names are the metric dict's keys in insertion order (every value
is the same `{"key": col, "type": "direct"}`). With at most one group all
non-excluded numeric columns are returned; otherwise only those whose
per-group availability reaches the threshold in every group. -/
def get_common_metrics (df : PyFrame) (threshold : ℚ) : PyFrame × List String :=
  let df2 := if df.companyVals.isSome then df
             else { df with companyVals := some (List.replicate df.nRows "Dataset") }
  let companies := companiesOf df
  let numeric_cols := df2.numericCols.filter (fun nv => !(excludeCols.contains nv.1))
  if companies.length ≤ 1 then (df2, numeric_cols.map Prod.fst)
  else
    let cvals := df2.companyVals.getD []
    (df2,
      (numeric_cols.filter (fun nv =>
        companies.all (fun c => decide (threshold ≤ availFrac cvals nv.2 c)))).map Prod.fst)

/-! ## Helper lemmas -/

theorem monthQuarter_q1 (m : Nat) (h1 : 1 ≤ m) (h2 : m ≤ 3) : monthQuarter m = "Q1" := by
  interval_cases m <;> rfl

theorem monthQuarter_q2 (m : Nat) (h1 : 4 ≤ m) (h2 : m ≤ 6) : monthQuarter m = "Q2" := by
  interval_cases m <;> rfl

theorem monthQuarter_q3 (m : Nat) (h1 : 7 ≤ m) (h2 : m ≤ 9) : monthQuarter m = "Q3" := by
  interval_cases m <;> rfl

theorem monthQuarter_q4 (m : Nat) (h1 : 10 ≤ m) (h2 : m ≤ 12) : monthQuarter m = "Q4" := by
  interval_cases m <;> rfl

theorem validate_ne_empty {s : String} (h : validate_date_format s = true) : (s == "") = false := by
  rcases s with ⟨cs⟩
  cases cs with
  | nil => simp [validate_date_format, isoShape] at h
  | cons c cs' => rfl

/-- determine_quarter on a string the format check accepts and strptime
parses: the quarter branch and the year, joined with one space. -/
theorem determine_quarter_parsed (s : String) (d : PyDate)
    (hv : validate_date_format s = true) (hp : strptimeYmd s = Except.ok d) :
    determine_quarter s = monthQuarter d.month ++ " " ++ toString d.year := by
  unfold determine_quarter
  rw [validate_ne_empty hv, hv]
  simp [hp, Except.toOption]

/-! ## Claim theorems -/

/-- C2: `parse_date` of Download_Reports.py is meant never to raise (spec:
"Unparseable input yields (None, Unknown, false) and must not raise"), but
the input "31/02/2020" matches pattern 3 structurally and the uncaught
`datetime(2020, 2, 31)` ValueError escapes the function instead of the
explicit failure result. -/
theorem parse_date_raises_on_invalid_day :
    parse_date "31/02/2020" = Except.error "ValueError: invalid date" := by rfl

/-- C5: resolving "gross_profit" never returns a column whose lower-cased
name contains "margin" (line 333 / line 1132 exclude margin columns before
the period filter of lines 338-339 ever sees them); in particular the
single-column set {"Current_Gross_Profit_Margin_Pct"} resolves to none. -/
theorem gross_profit_resolution_excludes_margin :
    (∀ (cols : List String) (period r : String),
      firstWithToken (grossProfitCols cols) period = some r →
      strHasSub (strLower r) "margin" = false)
    ∧ firstWithToken (grossProfitCols ["Current_Gross_Profit_Margin_Pct"]) "current" = none := by
  constructor
  · intro cols period r h
    have hmem : r ∈ grossProfitCols cols := List.mem_of_find?_eq_some h
    have hpred := (List.mem_filter.mp hmem).2
    simp only [Bool.and_eq_true, Bool.not_eq_true'] at hpred
    exact hpred.2
  · decide

/-- C6: with a period other than "any", the resolver (concept filter of
line 332 followed by the `next(...)` of lines 338-339) returns exactly the
first column in stored order whose lower-cased name contains both the
concept token and the period token, none when no column has both; over
["Current_Revenue", "Comparative_Revenue"] the concept "revenue" with
period "current" resolves to "Current_Revenue". -/
theorem resolver_first_match_both_tokens :
    (∀ (cols : List String) (concept period : String),
      firstWithToken (conceptCols cols concept) period =
        cols.find? (fun c => strHasSub (strLower c) concept && strHasSub (strLower c) period))
    ∧ (∀ (cols : List String) (concept period : String),
      firstWithToken (conceptCols cols concept) period = none ↔
        ∀ c ∈ cols, ¬(strHasSub (strLower c) concept && strHasSub (strLower c) period) = true)
    ∧ firstWithToken (conceptCols ["Current_Revenue", "Comparative_Revenue"] "revenue") "current" =
        some "Current_Revenue" := by
  have key : ∀ (cols : List String) (concept period : String),
      firstWithToken (conceptCols cols concept) period =
        cols.find? (fun c => strHasSub (strLower c) concept && strHasSub (strLower c) period) := by
    intro cols concept period
    unfold firstWithToken conceptCols
    rw [List.find?_filter]
    congr 1
    funext c
    by_cases h1 : strHasSub (strLower c) concept <;>
      by_cases h2 : strHasSub (strLower c) period <;> simp [h1, h2]
  refine ⟨key, fun cols concept period => ?_, by decide⟩
  rw [key, List.find?_eq_none]

/-- C8: a date the quarter deriver parses is mapped month-to-quarter by
the shared branches (1-3 Q1, 4-6 Q2, 7-9 Q3, 10-12 Q4); concretely,
"2020-06-30" normalizes to the date 2020-06-30 with quarter "Q2 2020" via
determine_quarter, and "30-Jun-2020" parses (parse_date) to the same date
2020-06-30, whose month the shared branches place in Q2. -/
theorem quarter_derivation_from_month :
    (∀ (s : String) (d : PyDate),
      validate_date_format s = true → strptimeYmd s = Except.ok d →
      determine_quarter s = monthQuarter d.month ++ " " ++ toString d.year
      ∧ (1 ≤ d.month ∧ d.month ≤ 3 → monthQuarter d.month = "Q1")
      ∧ (4 ≤ d.month ∧ d.month ≤ 6 → monthQuarter d.month = "Q2")
      ∧ (7 ≤ d.month ∧ d.month ≤ 9 → monthQuarter d.month = "Q3")
      ∧ (10 ≤ d.month ∧ d.month ≤ 12 → monthQuarter d.month = "Q4"))
    ∧ strptimeYmd "2020-06-30" = Except.ok ⟨2020, 6, 30⟩
    ∧ determine_quarter "2020-06-30" = "Q2 2020"
    ∧ parse_date "30-Jun-2020" = Except.ok (some ⟨2020, 6, 30⟩)
    ∧ monthQuarter 6 = "Q2" := by
  refine ⟨?_, by rfl, by rfl, by rfl, by rfl⟩
  intro s d hv hp
  exact ⟨determine_quarter_parsed s d hv hp,
    fun h => monthQuarter_q1 d.month h.1 h.2,
    fun h => monthQuarter_q2 d.month h.1 h.2,
    fun h => monthQuarter_q3 d.month h.1 h.2,
    fun h => monthQuarter_q4 d.month h.1 h.2⟩

/-- "Ends in" a recognized extension (the spec reading under test in C1). -/
def strEndsWith (s pat : String) : Bool := listStarts pat.toList.reverse s.toList.reverse

theorem listHasSub_append_right (pat xs ys : List Char) (h : listHasSub pat ys = true) :
    listHasSub pat (xs ++ ys) = true := by
  induction xs with
  | nil => simpa using h
  | cons x xs ih => simp [listHasSub, ih]

theorem string_toList_append (a b : String) : (a ++ b).toList = a.toList ++ b.toList := by
  rcases a with ⟨as⟩; rcases b with ⟨bs⟩; rfl

theorem strHasSub_append_right (a b pat : String) (h : strHasSub b pat = true) :
    strHasSub (a ++ b) pat = true := by
  unfold strHasSub at h ⊢
  rw [string_toList_append]
  exact listHasSub_append_right _ _ _ h

theorem strHasSub_pdf_ne_empty {h : String} (hsub : strHasSub h ".pdf" = true) : (h == "") = false := by
  rcases h with ⟨cs⟩
  cases cs with
  | nil => simp [strHasSub, listHasSub, listStarts] at hsub
  | cons c cs' => rfl

theorem append_ne_empty_beq (a b : String) (ha : a.toList ≠ []) : ((a ++ b) == "") = false := by
  rcases a with ⟨as⟩; rcases b with ⟨bs⟩
  cases as with
  | nil => exact absurd rfl ha
  | cons c cs => rfl

theorem linkOf_eq_empty_iff (href : Option String) :
    linkOf href = "" ↔ ∀ h, href = some h → strHasSub h ".pdf" = false := by
  cases href with
  | none => simp [linkOf]
  | some h =>
    cases hsub : strHasSub h ".pdf" with
    | false => simp [linkOf, hsub]
    | true =>
      simp only [linkOf, hsub, if_true]
      constructor
      · intro he
        exfalso
        cases hstart : strStartsWith h "/" with
        | false =>
          rw [if_neg (by simp [hstart])] at he
          subst he
          simp [strHasSub, listHasSub, listStarts] at hsub
        | true =>
          rw [if_pos (by simp [hstart])] at he
          have : (("https://www.cse.lk" ++ h) == "") = false :=
            append_ne_empty_beq _ _ (by decide)
          simp [he] at this
      · intro hall
        have hfalse := hall h rfl
        rw [hsub] at hfalse
        exact absurd hfalse (by simp)

theorem linkOf_contains_pdf (href : Option String) (hne : linkOf href ≠ "") :
    strHasSub (linkOf href) ".pdf" = true := by
  cases href with
  | none => exact absurd rfl hne
  | some h =>
    cases hsub : strHasSub h ".pdf" with
    | false => exact absurd (by simp [linkOf, hsub]) hne
    | true =>
      simp only [linkOf, hsub, if_true]
      cases hstart : strStartsWith h "/" with
      | false => simpa [hstart] using hsub
      | true =>
        rw [if_pos (by simp [hstart])]
        exact strHasSub_append_right _ _ _ hsub

theorem buildReportRecord_eq_none_iff (cn cs : String) (row : RowCells) :
    buildReportRecord cn cs row = none ↔ linkOf row.href = "" := by
  by_cases hl : linkOf row.href = "" <;> simp [buildReportRecord, hl]

theorem buildReportRecord_eq_some (cn cs : String) (row : RowCells)
    (hl : linkOf row.href ≠ "") :
    buildReportRecord cn cs row =
      some { company_name := cn, company_symbol := cs,
             date_uploaded := pyFirstLine row.dateCellText,
             report_text := row.reportText,
             quarter := (scanQuarterYear row.reportText).1,
             year := (scanQuarterYear row.reportText).2,
             pdf_url := linkOf row.href } := by
  simp [buildReportRecord, hl]

/-- C1 (amended): a record is retained exactly when the row's link target
contains ".pdf" as a substring (the rule of line 117), and every retained
record's pdf_url is non-empty and itself contains ".pdf"; the URL need not
end in ".pdf" (the code tests containment, not a true suffix). -/
theorem record_retained_iff_link_contains_pdf :
    ∀ (cn cs : String) (row : RowCells),
      (∀ r, buildReportRecord cn cs row = some r →
        r.pdf_url ≠ "" ∧ strHasSub r.pdf_url ".pdf" = true)
      ∧ (buildReportRecord cn cs row = none ↔
          ∀ h, row.href = some h → strHasSub h ".pdf" = false) := by
  intro cn cs row
  refine ⟨fun r hr => ?_, ?_⟩
  · by_cases hl : linkOf row.href = ""
    · rw [(buildReportRecord_eq_none_iff cn cs row).mpr hl] at hr
      exact absurd hr (by simp)
    · rw [buildReportRecord_eq_some cn cs row hl] at hr
      obtain rfl : _ = r := (Option.some.injEq _ _).mp hr
      exact ⟨hl, linkOf_contains_pdf row.href hl⟩
  · rw [buildReportRecord_eq_none_iff, linkOf_eq_empty_iff]

/-- C1 counterexample: the link target "/x.pdf?id=1" contains ".pdf", so
the row IS retained, yet the retained pdf_url does not end in ".pdf" —
the claim's "retained only if pdf_url ends in a recognized document
extension" fails on the code's substring test. -/
theorem retained_record_not_ending_in_pdf :
    ∃ r, buildReportRecord "Dipped Products PLC" "DIPD.N0000"
        ⟨"09 Feb 2025", "", some "/x.pdf?id=1"⟩ = some r
      ∧ strEndsWith r.pdf_url ".pdf" = false ∧ r.pdf_url ≠ "" :=
  ⟨{ company_name := "Dipped Products PLC", company_symbol := "DIPD.N0000",
     date_uploaded := "09 Feb 2025", report_text := "", quarter := "", year := "",
     pdf_url := "https://www.cse.lk/x.pdf?id=1" }, by decide, by decide, by decide⟩

theorem uniqueFirstAux_replicate_mem (x : String) (n : Nat) (seen : List String)
    (h : seen.contains x = true) : uniqueFirstAux seen (List.replicate n x) = [] := by
  induction n with
  | zero => rfl
  | succ k ih =>
    have hm : x ∈ seen := by simpa using h
    simp [List.replicate_succ, uniqueFirstAux, hm, ih]

theorem uniqueFirst_replicate (n : Nat) (x : String) :
    uniqueFirst (List.replicate n x) = if n = 0 then [] else [x] := by
  cases n with
  | zero => rfl
  | succ k =>
    simp only [uniqueFirst, List.replicate_succ, uniqueFirstAux, List.contains_nil,
      Bool.false_eq_true, if_false]
    rw [uniqueFirstAux_replicate_mem x k [x] (by simp)]
    simp

theorem get_common_metrics_none_eq (nc : List (String × List (Option ℚ))) (nr : Nat) (t : ℚ) :
    get_common_metrics ⟨none, nc, nr⟩ t =
      (⟨some (List.replicate nr "Dataset"), nc, nr⟩,
       (nc.filter (fun nv => !(excludeCols.contains nv.1))).map Prod.fst) := rfl

theorem get_common_metrics_frame_of_some (df : PyFrame) (t : ℚ)
    (h : df.companyVals.isSome = true) : (get_common_metrics df t).1 = df := by
  unfold get_common_metrics
  rw [if_pos h]
  by_cases hc : (companiesOf df).length ≤ 1 <;> simp [hc]

/-- C9 counterexample: a frame without a Company column is not left
unmodified — `df['Company'] = 'Dataset'` (line 211 of StreamlitUI.py)
writes the dummy column into the caller's frame. -/
theorem get_common_metrics_mutates_input :
    decide ((get_common_metrics ⟨none, [("X", [some 1])], 1⟩ (9/10)).1
      = (⟨none, [("X", [some 1])], 1⟩ : PyFrame)) = false := by decide

/-- C9 (amended): the components are pure functions of their inputs — the
record builder in particular returns structurally equal records on
identical calls — and get_common_metrics is stable under repetition and
leaves any frame that has a Company column untouched; but a frame without
one is modified in place (the dummy Company column is written into it), so
"leaves the inputs unmodified" fails for that one component. -/
theorem components_pure_except_company_insertion :
    (∀ (cn cs : String) (row : RowCells),
      buildReportRecord cn cs row = buildReportRecord cn cs row)
    ∧ (∀ (df : PyFrame) (t : ℚ), df.companyVals.isSome = true →
        (get_common_metrics df t).1 = df)
    ∧ (∀ (df : PyFrame) (t : ℚ),
        get_common_metrics (get_common_metrics df t).1 t = get_common_metrics df t) := by
  refine ⟨fun _ _ _ => rfl, get_common_metrics_frame_of_some, ?_⟩
  intro df t
  rcases df with ⟨cv, nc, nr⟩
  cases cv with
  | some vals =>
    rw [get_common_metrics_frame_of_some ⟨some vals, nc, nr⟩ t rfl]
  | none =>
    rw [get_common_metrics_none_eq nc nr t]
    show get_common_metrics ⟨some (List.replicate nr "Dataset"), nc, nr⟩ t
        = (⟨some (List.replicate nr "Dataset"), nc, nr⟩,
           (nc.filter (fun nv => !(excludeCols.contains nv.1))).map Prod.fst)
    have hlen : (companiesOf ⟨some (List.replicate nr "Dataset"), nc, nr⟩).length ≤ 1 := by
      simp only [companiesOf]
      rw [uniqueFirst_replicate]
      by_cases hn : nr = 0 <;> simp [hn]
    unfold get_common_metrics
    rw [if_pos hlen]
    rfl

/-- C10: with at most one entity group (no Company column, or a single
distinct value), get_common_metrics returns every numeric column except
the excluded Page_Numbers, whatever the threshold and whatever the
columns' absent-value fractions (the availability loop is the other
branch). -/
theorem single_group_includes_all_numeric (df : PyFrame) (t : ℚ)
    (h : (companiesOf df).length ≤ 1) :
    (get_common_metrics df t).2 =
      (df.numericCols.filter (fun nv => !(excludeCols.contains nv.1))).map Prod.fst := by
  rcases df with ⟨cv, nc, nr⟩
  cases cv with
  | none => rw [get_common_metrics_none_eq nc nr t]
  | some vals =>
    unfold get_common_metrics
    rw [if_pos h]
    rfl

/-- C10 witness: one company, a numeric column with every value absent is
still returned at threshold 9/10. -/
theorem single_group_includes_all_numeric_witness :
    (get_common_metrics ⟨some ["A", "A"], [("X", [none, none])], 2⟩ (9/10)).2 = ["X"] := by
  rw [single_group_includes_all_numeric ⟨some ["A", "A"], [("X", [none, none])], 2⟩ (9/10)
    (by decide)]
  rfl

theorem nodup_fst_unique {α β : Type} {l : List (α × β)}
    (hnd : (l.map Prod.fst).Nodup) {a : α} {b c : β}
    (h1 : (a, b) ∈ l) (h2 : (a, c) ∈ l) : b = c := by
  induction l with
  | nil => simp at h1
  | cons x xs ih =>
    rw [List.map_cons, List.nodup_cons] at hnd
    rcases List.mem_cons.mp h1 with h1h | h1t <;> rcases List.mem_cons.mp h2 with h2h | h2t
    · rw [← h1h] at h2h
      exact (Prod.mk.injEq _ _ _ _).mp h2h.symm |>.2
    · exfalso
      exact hnd.1 (by rw [← h1h]; exact List.mem_map.mpr ⟨(a, c), h2t, rfl⟩)
    · exfalso
      exact hnd.1 (by rw [← h2h]; exact List.mem_map.mpr ⟨(a, b), h1t, rfl⟩)
    · exact ih hnd.2 h1t h2t

/-- C4 (amended): with at least two entity groups, a numeric column other
than the excluded Page_Numbers is in the common-metrics set iff its
fraction of non-absent values reaches the threshold in every group (the
code additionally drops the column named "Page_Numbers" unconditionally,
so the equivalence as claimed for every numeric column fails there). -/
theorem threshold_filter_iff (df : PyFrame) (t : ℚ) (name : String)
    (vals : List (Option ℚ))
    (h2 : 2 ≤ (companiesOf df).length)
    (hmem : (name, vals) ∈ df.numericCols)
    (hnd : (df.numericCols.map Prod.fst).Nodup)
    (hex : name ∉ excludeCols) :
    ((get_common_metrics df t).2.contains name = true ↔
      ∀ c ∈ companiesOf df, t ≤ availFrac (df.companyVals.getD []) vals c) := by
  rcases df with ⟨cv, nc, nr⟩
  cases cv with
  | none => simp [companiesOf] at h2
  | some cvals =>
    have hexf : excludeCols.contains name = false := by
      rw [← Bool.not_eq_true]
      intro hc
      exact hex (List.elem_iff.mp hc)
    have hsnd : (get_common_metrics ⟨some cvals, nc, nr⟩ t).2 =
        ((nc.filter (fun nv => !(excludeCols.contains nv.1))).filter (fun nv =>
          (companiesOf ⟨some cvals, nc, nr⟩).all
            (fun c => decide (t ≤ availFrac cvals nv.2 c)))).map Prod.fst := by
      unfold get_common_metrics
      rw [if_neg (by omega)]
      rfl
    rw [hsnd, List.filter_filter]
    constructor
    · intro hcont
      obtain ⟨⟨n', v'⟩, hmemf, hfst⟩ := List.mem_map.mp (List.elem_iff.mp hcont)
      obtain ⟨hmem', hpred⟩ := List.mem_filter.mp hmemf
      rcases hfst
      have hveq : v' = vals := nodup_fst_unique hnd hmem' hmem
      rcases hveq
      intro c hc
      have hall := (Bool.and_eq_true _ _).mp hpred |>.1
      exact of_decide_eq_true (List.all_eq_true.mp hall c hc)
    · intro hall
      refine List.elem_iff.mpr
        (List.mem_map.mpr ⟨(name, vals), List.mem_filter.mpr ⟨hmem, ?_⟩, rfl⟩)
      rw [Bool.and_eq_true]
      constructor
      · exact List.all_eq_true.mpr (fun c hc => decide_eq_true (hall c hc))
      · show (!(excludeCols.contains name)) = true
        rw [hexf]
        rfl

/-- C4 witness: two groups, a "Revenue" column fully available in both
groups is included at threshold 9/10. -/
theorem threshold_filter_iff_witness :
    (get_common_metrics ⟨some ["A", "B"], [("Revenue", [some 1, some 2])], 2⟩
        (9/10)).2.contains "Revenue" = true := by
  refine (threshold_filter_iff ⟨some ["A", "B"], [("Revenue", [some 1, some 2])], 2⟩
    (9/10) "Revenue" [some 1, some 2] (by decide) (by decide) (by decide)
    (by decide)).mpr ?_
  intro c hc
  rw [show companiesOf ⟨some ["A", "B"], [("Revenue", [some 1, some 2])], 2⟩
      = ["A", "B"] from rfl] at hc
  rcases List.mem_cons.mp hc with rfl | hc
  · rw [show availFrac ((some ["A", "B"]).getD []) [some 1, some 2] "A"
        = ((1 : ℕ) : ℚ) / ((1 : ℕ) : ℚ) from rfl]
    norm_num
  · rcases List.mem_cons.mp hc with rfl | hc
    · rw [show availFrac ((some ["A", "B"]).getD []) [some 1, some 2] "B"
          = ((1 : ℕ) : ℚ) / ((1 : ℕ) : ℚ) from rfl]
      norm_num
    · simp at hc

/-- C4 counterexample: a numeric column named "Page_Numbers", fully
available in both of two groups (fraction 1 ≥ 9/10 in each), is still not
in the common-metrics set — the iff claimed for every numeric column fails
on the excluded name. -/
theorem threshold_filter_excludes_page_numbers :
    2 ≤ (companiesOf ⟨some ["A", "B"], [("Page_Numbers", [some 1, some 2])], 2⟩).length
    ∧ (∀ c ∈ companiesOf ⟨some ["A", "B"], [("Page_Numbers", [some 1, some 2])], 2⟩,
        (9 : ℚ)/10 ≤ availFrac ["A", "B"] [some 1, some 2] c)
    ∧ (get_common_metrics ⟨some ["A", "B"], [("Page_Numbers", [some 1, some 2])], 2⟩
        (9/10)).2.contains "Page_Numbers" = false := by
  refine ⟨by decide, ?_, by decide⟩
  intro c hc
  rw [show companiesOf ⟨some ["A", "B"], [("Page_Numbers", [some 1, some 2])], 2⟩
      = ["A", "B"] from rfl] at hc
  rcases List.mem_cons.mp hc with rfl | hc
  · rw [show availFrac ["A", "B"] [some 1, some 2] "A"
        = ((1 : ℕ) : ℚ) / ((1 : ℕ) : ℚ) from rfl]
    norm_num
  · rcases List.mem_cons.mp hc with rfl | hc
    · rw [show availFrac ["A", "B"] [some 1, some 2] "B"
          = ((1 : ℕ) : ℚ) / ((1 : ℕ) : ℚ) from rfl]
      norm_num
    · simp at hc

/-! ## Inversion of the pattern-0 matcher (for the merged year/hour claim) -/

theorem takeCount_sound (p : Char → Bool) :
    ∀ (n : Nat) (cs g r : List Char), takeCount p n cs = some (g, r) →
      g.length = n ∧ (∀ c ∈ g, p c = true) ∧ cs = g ++ r := by
  intro n
  induction n with
  | zero =>
    intro cs g r h
    simp only [takeCount, Option.some.injEq, Prod.mk.injEq] at h
    obtain ⟨rfl, rfl⟩ := h
    simp
  | succ k ih =>
    intro cs g r h
    cases cs with
    | nil => rw [takeCount.eq_def] at h; simp at h
    | cons c cs' =>
      simp only [takeCount] at h
      by_cases hp : p c
      · rw [if_pos hp] at h
        cases htc : takeCount p k cs' with
        | none => rw [htc] at h; exact Option.noConfusion h
        | some gr =>
          rw [htc] at h
          obtain ⟨g', r'⟩ := gr
          simp only [Option.map_some', Option.some.injEq, Prod.mk.injEq] at h
          obtain ⟨rfl, rfl⟩ := h
          obtain ⟨hlen, hdig, hsplit⟩ := ih cs' g' r' htc
          refine ⟨by simp [hlen], ?_, by simp [hsplit]⟩
          intro x hx
          rcases List.mem_cons.mp hx with rfl | hx
          · exact hp
          · exact hdig x hx
      · rw [if_neg hp] at h
        simp at h

theorem lit_sound (ch : Char) (cs r : List Char) (h : lit ch cs = some r) : cs = ch :: r := by
  cases cs with
  | nil => simp [lit] at h
  | cons c cs' =>
    simp only [lit] at h
    by_cases hc : c == ch
    · rw [if_pos hc] at h
      obtain rfl := (Option.some.injEq _ _).mp h
      rw [eq_of_beq hc]
    · rw [if_neg hc] at h
      simp at h

theorem ampmTail_sound (cs : List Char) (ap : String) (rest : List Char)
    (h : ampmTail cs = some (ap, rest)) :
    ∃ c, cs = c :: 'M' :: rest ∧ ap.toList = [c, 'M'] := by
  match cs with
  | [] => simp [ampmTail] at h
  | [c] => simp [ampmTail] at h
  | c :: m :: cs' =>
    simp only [ampmTail] at h
    by_cases hcm : (c == 'A' || c == 'P') && m == 'M'
    · rw [if_pos hcm] at h
      simp only [Option.some.injEq, Prod.mk.injEq] at h
      obtain ⟨rfl, rfl⟩ := h
      have hm : m = 'M' := eq_of_beq ((Bool.and_eq_true _ _).mp hcm).2
      subst hm
      exact ⟨c, rfl, rfl⟩
    · rw [if_neg hcm] at h
      simp at h

theorem matchP0_sound (s : String) (g : TimeGroups) (h : matchP0 s = some g) :
    ∃ rest : List Char,
      s.toList = g.day.toList ++ [' '] ++ g.monthStr.toList ++ [' ']
        ++ g.year.toList ++ g.hour.toList ++ [':'] ++ g.minute.toList ++ [' ']
        ++ g.ampm.toList ++ rest
      ∧ g.day.toList.length = 2 ∧ g.year.toList.length = 4 ∧ g.hour.toList.length = 2
      ∧ (∀ c ∈ g.year.toList, c.isDigit = true) ∧ (∀ c ∈ g.hour.toList, c.isDigit = true) := by
  simp only [matchP0, bind, Option.bind_eq_some, pure, Option.some.injEq] at h
  obtain ⟨⟨d, r1⟩, h1, r2, h2, ⟨mon, r3⟩, h3, r4, h4, ⟨y, r5⟩, h5, ⟨hr, r6⟩, h6,
    r7, h7, ⟨mi, r8⟩, h8, r9, h9, ⟨ap, r10⟩, h10, hg⟩ := h
  subst hg
  obtain ⟨hd_len, _, hd_split⟩ := takeCount_sound _ _ _ _ _ h1
  have h2' := lit_sound _ _ _ h2
  obtain ⟨hmon_len, _, hmon_split⟩ := takeCount_sound _ _ _ _ _ h3
  have h4' := lit_sound _ _ _ h4
  obtain ⟨hy_len, hy_dig, hy_split⟩ := takeCount_sound _ _ _ _ _ h5
  obtain ⟨hh_len, hh_dig, hh_split⟩ := takeCount_sound _ _ _ _ _ h6
  have h7' := lit_sound _ _ _ h7
  obtain ⟨hmi_len, _, hmi_split⟩ := takeCount_sound _ _ _ _ _ h8
  have h9' := lit_sound _ _ _ h9
  obtain ⟨c, h10', hap⟩ := ampmTail_sound _ _ _ h10
  dsimp only at h2' h4' hh_split h7' h9'
  refine ⟨r10, ?_, hd_len, hy_len, hh_len, hy_dig, hh_dig⟩
  show s.toList = d ++ [' '] ++ mon ++ [' '] ++ y ++ hr ++ [':'] ++ mi ++ [' ']
    ++ ap.toList ++ r10
  rw [hd_split, h2', hmon_split, h4', hy_split, hh_split, h7', hmi_split, h9', h10', hap]
  simp

theorem string_length_eq_toList_length (s : String) : s.length = s.toList.length := by
  rcases s with ⟨cs⟩
  rfl

/-- C3: on every string matching the no-space artifact pattern
`DD Mon YYYYHH:MM AM/PM`, the year/hour split parse_date works with is the
regex's own fixed-width split: the year group has exactly four digit
characters, the hour group exactly two, the reassignment of lines 34-36
never fires (the captured year is never longer than four), and the year
digits followed by the hour digits occur verbatim in the input as the
original merged six-digit run (between the month's space and the colon). -/
theorem no_space_split_reproduces_digits (s : String) (g : TimeGroups)
    (h : matchP0 s = some g) :
    fixYearHour g.year g.hour = (g.year, g.hour)
    ∧ g.year.toList.length = 4 ∧ g.hour.toList.length = 2
    ∧ (∀ c ∈ g.year.toList ++ g.hour.toList, c.isDigit = true)
    ∧ ∃ rest : List Char,
        s.toList = g.day.toList ++ [' '] ++ g.monthStr.toList ++ [' ']
          ++ (g.year.toList ++ g.hour.toList) ++ [':'] ++ g.minute.toList ++ [' ']
          ++ g.ampm.toList ++ rest := by
  obtain ⟨rest, hdecomp, hd_len, hy_len, hh_len, hy_dig, hh_dig⟩ := matchP0_sound s g h
  refine ⟨?_, hy_len, hh_len, ?_, rest, ?_⟩
  · unfold fixYearHour
    rw [if_neg]
    rw [string_length_eq_toList_length, hy_len]
    omega
  · intro c hc
    rcases List.mem_append.mp hc with h1 | h2
    · exact hy_dig c h1
    · exact hh_dig c h2
  · rw [hdecomp]
    simp [List.append_assoc]

/-- C3 witness: the artifact string "09 Feb 202511:19 PM" splits into year
"2025" and hour "11", and "2025" ++ "11" is the original digit run. -/
theorem no_space_split_witness :
    fixYearHour "2025" "11" = ("2025", "11")
    ∧ ("2025" : String).toList.length = 4 ∧ ("11" : String).toList.length = 2
    ∧ (∀ c ∈ ("2025" : String).toList ++ ("11" : String).toList, c.isDigit = true)
    ∧ ∃ rest : List Char,
        ("09 Feb 202511:19 PM" : String).toList
          = ("09" : String).toList ++ [' '] ++ ("Feb" : String).toList ++ [' ']
            ++ (("2025" : String).toList ++ ("11" : String).toList) ++ [':']
            ++ ("19" : String).toList ++ [' '] ++ ("PM" : String).toList ++ rest :=
  no_space_split_reproduces_digits "09 Feb 202511:19 PM"
    ⟨"09", "Feb", "2025", "11", "19", "PM"⟩ (by decide)

theorem not_starts_comparative_of_current (k : String) :
    strStartsWith ("Current_" ++ k) "Comparative_" = false := by
  rcases k with ⟨cs⟩
  rfl

theorem not_starts_comparative_of_yoy (k : String) :
    strStartsWith ("YoY_Change_Pct_" ++ k) "Comparative_" = false := by
  rcases k with ⟨cs⟩
  rfl

/-- C7: the flattened row is the fixed base fields followed by the
prefixed metric columns; the three sections are read defensively, so a
result whose financial_metrics lacks the comparative_period key yields
exactly the Current_ and YoY_Change_Pct_ columns of the sections present
and no Comparative_-prefixed metric column at all. -/
theorem flatten_missing_comparative (data : ExtractionData)
    (fm : FinancialMetricsJson) (f : String)
    (hfm : data.financial_metrics = some fm) (hcp : fm.comparative_period = none) :
    flattenResult data f = baseCols data f ++ sectionCols data
    ∧ sectionCols data =
        ((fm.current_period.getD []).map (fun kv => ("Current_" ++ kv.1, kv.2)))
          ++ ((fm.yoy_change_pct.getD []).map (fun kv => ("YoY_Change_Pct_" ++ kv.1, kv.2)))
    ∧ ∀ p ∈ sectionCols data, strStartsWith p.1 "Comparative_" = false := by
  have hsec : sectionCols data =
      ((fm.current_period.getD []).map (fun kv => ("Current_" ++ kv.1, kv.2)))
        ++ ((fm.yoy_change_pct.getD []).map (fun kv => ("YoY_Change_Pct_" ++ kv.1, kv.2))) := by
    unfold sectionCols
    rw [hfm]
    show ((fm.current_period.getD []).map _) ++ ((fm.comparative_period.getD []).map _)
        ++ ((fm.yoy_change_pct.getD []).map _) = _
    rw [hcp]
    simp
  refine ⟨rfl, hsec, ?_⟩
  intro p hp
  rw [hsec] at hp
  rcases List.mem_append.mp hp with hcur | hyoy
  · obtain ⟨kv, _, hkv⟩ := List.mem_map.mp hcur
    rw [← hkv]
    exact not_starts_comparative_of_current kv.1
  · obtain ⟨kv, _, hkv⟩ := List.mem_map.mp hyoy
    rw [← hkv]
    exact not_starts_comparative_of_yoy kv.1

/-- C7 witness: a result with only current and yoy sections flattens to the
base fields plus exactly one Current_ and one YoY_Change_Pct_ column and
nothing Comparative_-prefixed among the metric columns. -/
theorem flatten_missing_comparative_witness :
    (flattenResult
        { financial_metrics := some { current_period := some [("revenue", PyVal.num 5)],
                                      yoy_change_pct := some [("revenue", PyVal.num 2)] } }
        "r.pdf"
      = baseCols
          { financial_metrics := some { current_period := some [("revenue", PyVal.num 5)],
                                        yoy_change_pct := some [("revenue", PyVal.num 2)] } }
          "r.pdf"
        ++ sectionCols
          { financial_metrics := some { current_period := some [("revenue", PyVal.num 5)],
                                        yoy_change_pct := some [("revenue", PyVal.num 2)] } })
    ∧ sectionCols
        { financial_metrics := some { current_period := some [("revenue", PyVal.num 5)],
                                      yoy_change_pct := some [("revenue", PyVal.num 2)] } }
      = [("Current_" ++ "revenue", PyVal.num 5)] ++ [("YoY_Change_Pct_" ++ "revenue", PyVal.num 2)]
    ∧ ∀ p ∈ sectionCols
        { financial_metrics := some { current_period := some [("revenue", PyVal.num 5)],
                                      yoy_change_pct := some [("revenue", PyVal.num 2)] } },
        strStartsWith p.1 "Comparative_" = false :=
  flatten_missing_comparative
    { financial_metrics := some { current_period := some [("revenue", PyVal.num 5)],
                                  yoy_change_pct := some [("revenue", PyVal.num 2)] } }
    { current_period := some [("revenue", PyVal.num 5)],
      yoy_change_pct := some [("revenue", PyVal.num 2)] }
    "r.pdf" rfl rfl
